import Mathlib

/-!
Shallow embedding of the update-check engine and notification state machine of
the `simple_update_checker` repository (Rust), together with proofs of the
spec claims about it.

Modelling conventions:
* Timestamps (`NaiveDateTime`, produced by `Utc::now()`) are abstracted to
  `Nat`; each operation takes the current time as an explicit `now` parameter.
* The SQLite-backed store (`Db` in `src/db/mod.rs` plus the row operations in
  `src/db/programs/mod.rs`, `src/db/program/notification.rs`,
  `src/db/program/version.rs`, `src/db/update_check_history.rs`,
  `src/db/update_history.rs`) is modelled as an explicit state value `Db`
  holding the `programs` table rows and the two append-only history tables.
  The store operations used by the engine are modelled as pure state
  transformers; store errors are not modelled (the engine unwraps or
  propagates them uniformly and no claim is about them).
* The Version Provider network call `Provider::check_for_latest_version`
  (src/update_check.rs) is an I/O boundary; it is abstracted as a function
  `fetch : Provider → Except String String` passed to the engine, exactly at
  the interface granularity the engine consumes it.
* The ntfy.sh dispatch calls (src/notification.rs) are I/O boundaries,
  abstracted as boolean outcomes (`dispatchOk`, `errorNotifyOk`).
* `println!` / `tracing` logging has no state effect and is omitted
  (`print_messages` parameter of `check_for_updates` is dropped).
-/

namespace SUC

/-- Provider variants (src/lib.rs `Provider`): the string is the GitHub
repository identifier. -/
inductive Provider where
  | github (repository : String)
deriving DecidableEq

/-- In-memory program record (src/lib.rs `Program`). Note that the in-memory
record has no notification fields; those exist only in the database rows. -/
structure Program where
  name : String
  current_version : String
  current_version_last_updated : Nat
  latest_version : String
  latest_version_last_updated : Nat
  provider : Provider
deriving DecidableEq

/-- One row of the `programs` table, as created by the migrations and read or
written by the row operations. It extends the in-memory `Program` fields with
the notification columns `notification_sent` and `notification_sent_on`. -/
structure ProgramRow where
  name : String
  current_version : String
  current_version_last_updated : Nat
  latest_version : String
  latest_version_last_updated : Nat
  provider : Provider
  notification_sent : Bool
  notification_sent_on : Option Nat
deriving DecidableEq

/-- Projection of a row to the in-memory `Program` record, as performed by the
SELECT in `Db::get_all_programs` / `Db::get_program`. -/
def ProgramRow.toProgram (r : ProgramRow) : Program :=
  { name := r.name
    current_version := r.current_version
    current_version_last_updated := r.current_version_last_updated
    latest_version := r.latest_version
    latest_version_last_updated := r.latest_version_last_updated
    provider := r.provider }

/-- Manual vs Timed check (src/lib.rs `UpdateCheckType`). -/
inductive UpdateCheckType where
  | Manual
  | Timed
deriving DecidableEq

/-- Record of one full check pass (src/lib.rs `UpdateCheckHistoryEntry`). -/
structure UpdateCheckHistoryEntry where
  date : Nat
  type : UpdateCheckType
  updates_available : Nat
  programs : String
deriving DecidableEq

/-- Record of one applied update (src/lib.rs `UpdateHistoryEntry`). -/
structure UpdateHistoryEntry where
  date : Nat
  name : String
  old_version : String
  updated_to : String
deriving DecidableEq

/-- Projection of the notification columns (src/lib.rs `NotificationInfo`). -/
structure NotificationInfo where
  sent : Bool
  sent_on : Option Nat
deriving DecidableEq

/-- The database contents consumed by the engine: the `programs` table and the
two append-only history tables (src/db). -/
structure Db where
  programs : List ProgramRow
  update_check_history : List UpdateCheckHistoryEntry
  update_history : List UpdateHistoryEntry
deriving DecidableEq

/-- CLI options of the manual `check` command (src/cli.rs `CheckArgs`). -/
structure CheckArgs where
  set_current_version : Bool
  allow_notification : Bool
deriving DecidableEq

/-- An `UPDATE programs SET ... WHERE name = ?` statement: apply `f` to every
row whose `name` column matches. -/
def Db.updateRows (db : Db) (name : String) (f : ProgramRow → ProgramRow) : Db :=
  { db with programs := db.programs.map fun r => if r.name = name then f r else r }

/-- A `SELECT ... FROM programs WHERE name = ?` with `fetch_optional`: the
first row whose `name` column matches. -/
def Db.lookupRow (db : Db) (name : String) : Option ProgramRow :=
  db.programs.find? fun r => decide (r.name = name)

/-- Store operation `Db::set_notification_sent`
(src/db/program/notification.rs). -/
def Db.set_notification_sent (db : Db) (program_name : String) (notification_sent : Bool) : Db :=
  db.updateRows program_name fun r => { r with notification_sent := notification_sent }

/-- Store operation `Db::set_notification_sent_on`
(src/db/program/notification.rs). -/
def Db.set_notification_sent_on (db : Db) (program_name : String)
    (notification_sent_on : Option Nat) : Db :=
  db.updateRows program_name fun r => { r with notification_sent_on := notification_sent_on }

/-- Store operation `Db::update_latest_version` (src/db/program/version.rs). -/
def Db.update_latest_version (db : Db) (name : String) (latest_version : String)
    (latest_version_last_updated : Nat) : Db :=
  db.updateRows name fun r =>
    { r with latest_version := latest_version
             latest_version_last_updated := latest_version_last_updated }

/-- Store operation `Db::update_current_version` (src/db/program/version.rs). -/
def Db.update_current_version (db : Db) (name : String) (current_version : String)
    (current_version_last_updated : Nat) : Db :=
  db.updateRows name fun r =>
    { r with current_version := current_version
             current_version_last_updated := current_version_last_updated }

/-- Store operation `Db::get_notification_info`
(src/db/program/notification.rs): projects the notification columns of the
row named `program_name`, `none` if no such row exists. -/
def Db.get_notification_info (db : Db) (program_name : String) : Option NotificationInfo :=
  (db.lookupRow program_name).map fun r =>
    { sent := r.notification_sent, sent_on := r.notification_sent_on }

/-- Store operation `Db::get_program` (src/db/programs/mod.rs), projected to
the in-memory record. -/
def Db.get_program (db : Db) (name : String) : Option Program :=
  (db.lookupRow name).map ProgramRow.toProgram

/-- Store operation `Db::get_all_programs` (src/db/programs/mod.rs). -/
def Db.get_all_programs (db : Db) : List Program :=
  db.programs.map ProgramRow.toProgram

/-- Store operation `Db::insert_update_check_history`
(src/db/update_check_history.rs): append-only INSERT. -/
def Db.insert_update_check_history (db : Db) (entry : UpdateCheckHistoryEntry) : Db :=
  { db with update_check_history := db.update_check_history ++ [entry] }

/-- Store operation `Db::insert_performed_update` (src/db/update_history.rs):
append-only INSERT. -/
def Db.insert_performed_update (db : Db) (entry : UpdateHistoryEntry) : Db :=
  { db with update_history := db.update_history ++ [entry] }

/-- Store operation `Db::insert_program` (src/db/programs/mod.rs). The INSERT
names only the version columns, so the notification columns take the schema
defaults; the defaults are pinned by the in-repo test
`test_db_set_notification_sent` (src/db/program/notification.rs), which
asserts that a freshly inserted, untouched program reads back
`notification_sent = false`, and by `test_db_set_notification_sent_on`, which
asserts `notification_sent_on = None`. -/
def Db.insert_program (db : Db) (program : Program) : Db :=
  { db with
      programs := db.programs ++
        [{ name := program.name
           current_version := program.current_version
           current_version_last_updated := program.current_version_last_updated
           latest_version := program.latest_version
           latest_version_last_updated := program.latest_version_last_updated
           provider := program.provider
           notification_sent := false
           notification_sent_on := none }] }

/-- The `programs.sort_by(|a, b| a.name.cmp(&b.name))` calls
(src/update_check.rs, src/actions/mod.rs, src/actions/run_timed.rs): a stable
sort by program name. -/
def sortByName (programs : List Program) : List Program :=
  List.insertionSort (fun a b => a.name ≤ b.name) programs

/-- Constructor `UpdateCheckHistoryEntry::from_now` (src/lib.rs): sorts the
updated programs by name, counts them and joins their names. -/
def UpdateCheckHistoryEntry.from_now (type : UpdateCheckType)
    (programs_with_updates : List Program) (now : Nat) : UpdateCheckHistoryEntry :=
  let sorted := sortByName programs_with_updates
  { date := now
    type := type
    updates_available := sorted.length
    programs := String.intercalate ", " (sorted.map Program.name) }

/-- Outcome of one `check_for_updates` call: the database after the call (also
meaningful when the pass aborted, because earlier per-program writes persist),
the returned list of programs with available updates, and the propagated
provider error, if any. -/
structure CheckResult where
  db : Db
  updates : List Program
  error : Option String
deriving DecidableEq

/-- The Case A write sequence of `check_for_updates` (src/update_check.rs
lines 63-80): reset the notification columns, persist the new latest version,
and, when `set_current_version` is set, persist the current version too. -/
def caseAWrites (check_args : Option CheckArgs) (now : Nat) (db : Db) (name : String)
    (latest_version : String) : Db :=
  let db := db.set_notification_sent name false
  let db := db.set_notification_sent_on name none
  let db := db.update_latest_version name latest_version now
  match check_args with
  | some ca =>
      if ca.set_current_version then db.update_current_version name latest_version now else db
  | none => db

/-- The manual-suppression write of `check_for_updates` (src/update_check.rs
lines 91-97 and 111-117): in a Manual check whose args do not allow a later
notification, mark the update as already notified. -/
def applyManualSuppression (check_args : Option CheckArgs) (type : UpdateCheckType)
    (db : Db) (name : String) : Db :=
  if type = UpdateCheckType.Manual then
    match check_args with
    | some ca =>
        if !ca.allow_notification then db.set_notification_sent name true else db
    | none => db
  else db

/-- The `for mut program in programs` loop of `check_for_updates`
(src/update_check.rs lines 54-123), threading the database state. A provider
failure aborts the loop via `?`, keeping the writes already performed. -/
def checkLoop (fetch : Provider → Except String String) (check_args : Option CheckArgs)
    (type : UpdateCheckType) (now : Nat) : Db → List Program → CheckResult
  | db, [] => { db := db, updates := [], error := none }
  | db, p :: rest =>
    match fetch p.provider with
    | Except.error e => { db := db, updates := [], error := some e }
    | Except.ok latest_version =>
      if latest_version ≠ p.latest_version then
        let db := applyManualSuppression check_args type
          (caseAWrites check_args now db p.name latest_version) p.name
        let r := checkLoop fetch check_args type now db rest
        { db := r.db, updates := { p with latest_version := latest_version } :: r.updates,
          error := r.error }
      else if latest_version ≠ p.current_version then
        let db := applyManualSuppression check_args type db p.name
        let r := checkLoop fetch check_args type now db rest
        { db := r.db, updates := p :: r.updates, error := r.error }
      else
        checkLoop fetch check_args type now db rest

/-- The engine entry point `check_for_updates` (src/update_check.rs lines
42-133): read all programs, sort by name, run the per-program loop, and on
completion append exactly one history entry summarizing the pass. On a
provider failure the error is returned and no history entry is written. -/
def check_for_updates (fetch : Provider → Except String String)
    (check_args : Option CheckArgs) (type : UpdateCheckType) (now : Nat)
    (db : Db) : CheckResult :=
  let programs := sortByName db.get_all_programs
  let r := checkLoop fetch check_args type now db programs
  match r.error with
  | some e => { db := r.db, updates := [], error := some e }
  | none =>
      { db := r.db.insert_update_check_history
          (UpdateCheckHistoryEntry.from_now type r.updates now)
        updates := r.updates
        error := none }

/-- Errors of `send_update_notification` (src/actions/run_timed.rs): the
`anyhow::bail!` on a program missing from the store, and a failed ntfy.sh
dispatch. -/
inductive NotifyError where
  | missingProgram (name : String)
  | dispatchFailed
deriving DecidableEq

/-- Outcome of one `send_update_notification` call: the database after the
call, the error if the call bailed, whether the external notification channel
was contacted, the names included in the outbound message, and the message
text itself. -/
structure NotifyResult where
  db : Db
  error : Option NotifyError
  network_called : Bool
  notified : List String
  message : String
deriving DecidableEq

/-- The read loop of `send_update_notification` (src/actions/run_timed.rs
lines 124-150): look up each program's notification info (a missing row is a
hard error), skip programs already notified, and build the outbound message
and the list of programs still to notify. -/
def notifyLoop (db : Db) : List Program → Except NotifyError (List Program × String)
  | [] => Except.ok ([], "")
  | p :: rest =>
    match db.get_notification_info p.name with
    | none => Except.error (NotifyError.missingProgram p.name)
    | some info =>
      if info.sent then
        notifyLoop db rest
      else
        match notifyLoop db rest with
        | Except.error e => Except.error e
        | Except.ok (ps, msg) =>
            Except.ok (p :: ps,
              (p.name ++ ": " ++ p.current_version ++ " -> " ++ p.latest_version ++ "\n") ++ msg)

/-- The marking loop run after a confirmed successful dispatch
(src/actions/run_timed.rs lines 159-164): set `notification_sent = true` and
`notification_sent_on = now` for every program that was included. -/
def markSent (now : Nat) : Db → List String → Db
  | db, [] => db
  | db, n :: rest =>
      markSent now ((db.set_notification_sent n true).set_notification_sent_on n (some now)) rest

/-- `send_update_notification` (src/actions/run_timed.rs lines 117-173). The
network call `notification::send_update_notification` is abstracted by the
boolean `dispatchOk`; when the filtered set is empty no network call is made,
and only a confirmed successful dispatch marks the included programs as
notified. -/
def send_update_notification (dispatchOk : Bool) (now : Nat) (db : Db)
    (programs : List Program) : NotifyResult :=
  match notifyLoop db programs with
  | Except.error e =>
      { db := db, error := some e, network_called := false, notified := [], message := "" }
  | Except.ok (toNotify, message) =>
    if toNotify.isEmpty then
      { db := db, error := none, network_called := false, notified := [], message := message }
    else if dispatchOk then
      { db := markSent now db (toNotify.map Program.name), error := none,
        network_called := true, notified := toNotify.map Program.name, message := message }
    else
      { db := db, error := some NotifyError.dispatchFailed, network_called := true,
        notified := toNotify.map Program.name, message := message }

/-- Errors of one timed check-and-notify pass (the local `check_for_updates`
of src/actions/run_timed.rs lines 81-115): a propagated engine/provider error
or a propagated notification error. -/
inductive PassError where
  | provider (message : String)
  | notify (e : NotifyError)
deriving DecidableEq

/-- One timed pass, the local `check_for_updates` of src/actions/run_timed.rs
(lines 81-115): run the engine with `check_args = None` in Timed mode and, if
the result set is non-empty, dispatch the update notification; either error
propagates to the caller. -/
def timed_check_for_updates (fetch : Provider → Except String String) (dispatchOk : Bool)
    (now : Nat) (db : Db) : Db × Option PassError :=
  let r := check_for_updates fetch none UpdateCheckType.Timed now db
  match r.error with
  | some e => (r.db, some (PassError.provider e))
  | none =>
    if r.updates.isEmpty then (r.db, none)
    else
      let n := send_update_notification dispatchOk now r.db r.updates
      (n.db, n.error.map PassError.notify)

/-- Environment of one scheduler-loop iteration: the provider behaviour, the
outcomes of the two external notification calls, and the clock. -/
structure LoopEnv where
  fetch : Provider → Except String String
  dispatchOk : Bool
  errorNotifyOk : Bool
  now : Nat

/-- Observable record of one scheduler-loop iteration: the pass error, if any,
whether the best-effort error notification was attempted, and its outcome. -/
structure IterationLog where
  pass_error : Option PassError
  error_notification_attempted : Bool
  error_notification_ok : Option Bool
deriving DecidableEq

/-- One iteration of the scheduler loop body (src/actions/run_timed.rs `spawn`
lines 57-77): the pass error, if any, is caught with `if let Err`, logged, and
forwarded to `notification::send_error_notifictaion`, whose own failure is
again only caught and logged; the body always returns normally. -/
def loopBody (env : LoopEnv) (db : Db) : Db × IterationLog :=
  match timed_check_for_updates env.fetch env.dispatchOk env.now db with
  | (db1, none) =>
      (db1, { pass_error := none, error_notification_attempted := false,
              error_notification_ok := none })
  | (db1, some e) =>
      (db1, { pass_error := some e, error_notification_attempted := true,
              error_notification_ok := some env.errorNotifyOk })

/-- The first `n` iterations of the scheduler loop (src/actions/run_timed.rs
`spawn`): iteration `k` runs under environment `envs k`. The real loop is
unbounded; `runLoop` observes its finite prefixes. -/
def runLoop (envs : Nat → LoopEnv) (db : Db) : Nat → Db × List IterationLog
  | 0 => (db, [])
  | n + 1 =>
    let r := runLoop envs db n
    let s := loopBody (envs n) r.1
    (s.1, r.2 ++ [s.2])

/-- Constructor `Program::init` (src/lib.rs lines 40-57): fetch the latest
version from the provider and create the in-memory record with
`current_version = latest_version` = the fetched version. -/
def Program.init (fetch : Provider → Except String String) (name : String)
    (provider : Provider) (now : Nat) : Except String Program :=
  match fetch provider with
  | Except.error e => Except.error e
  | Except.ok latest_version =>
      Except.ok
        { name := name
          current_version := latest_version
          current_version_last_updated := now
          latest_version := latest_version
          latest_version_last_updated := now
          provider := provider }

/-- The add-program registration flow `add_program_github`
(src/actions/add_program.rs): if the name is already present the process exits
without touching the store; otherwise the program is initialised from the
provider and inserted. A provider failure propagates (the Rust code unwraps
it). -/
def add_program_github (fetch : Provider → Except String String) (db : Db)
    (name : String) (repository : String) (now : Nat) : Except String Db :=
  if (db.get_program name).isSome then Except.ok db
  else
    match Program.init fetch name (Provider.github repository) now with
    | Except.error e => Except.error e
    | Except.ok program => Except.ok (db.insert_program program)

/-- The apply-update action `update` (src/actions/mod.rs lines 80-116): a
missing program or an already-current program exits without touching the
store; otherwise `current_version` is promoted to `latest_version` and one
`UpdateHistoryEntry` is appended. -/
def update (db : Db) (name : String) (now : Nat) : Db :=
  match db.get_program name with
  | none => db
  | some program =>
    if program.current_version = program.latest_version then db
    else
      let db := db.update_current_version name program.latest_version now
      db.insert_performed_update
        { date := now
          name := program.name
          old_version := program.current_version
          updated_to := program.latest_version }

/-- The combined condition under which `check_for_updates` marks a program as
already notified (src/update_check.rs lines 91-97 and 111-117): a Manual check
whose `CheckArgs` are present and do not allow a notification. -/
def suppressFlag (check_args : Option CheckArgs) (type : UpdateCheckType) : Bool :=
  match type, check_args with
  | UpdateCheckType.Manual, some ca => !ca.allow_notification
  | _, _ => false

/-- Whether the pass also promotes `current_version` (the `set_current_version`
option, only available when `CheckArgs` are present). -/
def scvFlag : Option CheckArgs → Bool
  | some ca => ca.set_current_version
  | none => false

/-- Net effect of the Case A write sequence plus the manual-suppression write
on the row of the processed program. -/
def caseATransform (check_args : Option CheckArgs) (type : UpdateCheckType) (now : Nat)
    (latest_version : String) (r : ProgramRow) : ProgramRow :=
  { r with
      latest_version := latest_version
      latest_version_last_updated := now
      notification_sent := suppressFlag check_args type
      notification_sent_on := none
      current_version := if scvFlag check_args then latest_version else r.current_version
      current_version_last_updated :=
        if scvFlag check_args then now else r.current_version_last_updated }

/-- Net effect of the Case B branch (manual-suppression write only) on the row
of the processed program. -/
def caseBTransform (check_args : Option CheckArgs) (type : UpdateCheckType)
    (r : ProgramRow) : ProgramRow :=
  if suppressFlag check_args type then { r with notification_sent := true } else r

/-- Net effect of one `check_for_updates` pass on the row of a program whose
provider returned `v`: Case A when `v` differs from the stored latest version,
Case B when it differs only from the current version, Case C otherwise. -/
def rowAfter (check_args : Option CheckArgs) (type : UpdateCheckType) (now : Nat)
    (r : ProgramRow) (v : String) : ProgramRow :=
  if v ≠ r.latest_version then caseATransform check_args type now v r
  else if v ≠ r.current_version then caseBTransform check_args type r
  else r

/-- How a row can evolve across one pass that runs with `check_args = None`:
either it is untouched, or it went through the Case A reset, which never
touches `current_version` or `current_version_last_updated` and only ever
resets the notification flag to `false` (clearing `notification_sent_on`). -/
def noArgsRowEvolution (r r1 : ProgramRow) : Prop :=
  r1 = r ∨
    (r1.name = r.name ∧ r1.provider = r.provider ∧
     r1.current_version = r.current_version ∧
     r1.current_version_last_updated = r.current_version_last_updated ∧
     r1.notification_sent = false ∧ r1.notification_sent_on = none)

/-- Sample row in steady state (`current_version = latest_version`, matching
what the provider returns below only until a new release appears). -/
def exRow : ProgramRow :=
  { name := "alpha", current_version := "1.0.0", current_version_last_updated := 0,
    latest_version := "1.0.0", latest_version_last_updated := 0,
    provider := Provider.github "acme/alpha", notification_sent := false,
    notification_sent_on := none }

/-- Sample row with a recorded but not yet applied update
(`latest_version ≠ current_version`, Case B against the provider below). -/
def exRowPending : ProgramRow :=
  { name := "alpha", current_version := "1.0.0", current_version_last_updated := 0,
    latest_version := "1.1.0", latest_version_last_updated := 0,
    provider := Provider.github "acme/alpha", notification_sent := false,
    notification_sent_on := none }

/-- Sample database holding only `exRow`. -/
def exDb : Db :=
  { programs := [exRow], update_check_history := [], update_history := [] }

/-- Sample database holding only `exRowPending`. -/
def exDbPending : Db :=
  { programs := [exRowPending], update_check_history := [], update_history := [] }

/-- Sample row whose notification was already marked sent. -/
def exRowSent : ProgramRow :=
  { exRowPending with
      name := "beta"
      notification_sent := true
      notification_sent_on := some 3 }

/-- Sample database holding a pending-update row and an already-notified
row. -/
def exDb2 : Db :=
  { programs := [exRowPending, exRowSent], update_check_history := [], update_history := [] }

/-- Sample in-memory program that exists in no database. -/
def exGhost : Program :=
  { name := "zeta", current_version := "1.0.0", current_version_last_updated := 0,
    latest_version := "1.1.0", latest_version_last_updated := 0,
    provider := Provider.github "acme/zeta" }

/-- Sample empty database. -/
def exEmptyDb : Db :=
  { programs := [], update_check_history := [], update_history := [] }

/-- Sample provider behaviour: every lookup returns version `1.1.0`. -/
def fetch11 : Provider → Except String String := fun _ => Except.ok "1.1.0"

/-- Sample provider behaviour: every lookup fails. -/
def fetchBoom : Provider → Except String String := fun _ => Except.error "boom"

/-- Sample scheduler environment whose provider always fails and whose error
notification channel also fails. -/
def exEnvs : Nat → LoopEnv :=
  fun _ => { fetch := fetchBoom, dispatchOk := false, errorNotifyOk := false, now := 0 }

/-! Basic lemmas about the store operations. -/

/-- Generic list form of `lookupRow_updateRows`: a keyed UPDATE commutes with
a keyed SELECT provided the update does not change the key column. -/
theorem find?_map_keyed (l : List ProgramRow) (m n : String) (f : ProgramRow → ProgramRow)
    (hf : ∀ r, (f r).name = r.name) :
    (l.map fun r => if r.name = m then f r else r).find? (fun r => decide (r.name = n)) =
      if m = n then (l.find? fun r => decide (r.name = n)).map f
      else l.find? fun r => decide (r.name = n) := by
  induction l with
  | nil => by_cases hmn : m = n <;> simp [hmn]
  | cons r rest ih =>
    by_cases hrm : r.name = m
    · by_cases hmn : m = n
      · subst hmn
        simp [List.find?_cons, hrm, hf]
      · have hrn : ¬ r.name = n := fun h => hmn (hrm ▸ h)
        simp only [List.map_cons, if_pos hrm]
        rw [List.find?_cons_of_neg _ (by simp [hf, hrn]),
          List.find?_cons_of_neg _ (by simp [hrn]), ih, if_neg hmn]
    · by_cases hrn : r.name = n
      · by_cases hmn : m = n
        · exact absurd (hmn ▸ hrn) hrm
        · simp only [List.map_cons, if_neg hrm]
          rw [List.find?_cons_of_pos _ (by simp [hrn]),
            List.find?_cons_of_pos _ (by simp [hrn]), if_neg hmn]
      · simp only [List.map_cons, if_neg hrm]
        rw [List.find?_cons_of_neg _ (by simp [hrn]),
          List.find?_cons_of_neg _ (by simp [hrn]), ih]

/-- A keyed SELECT after a keyed UPDATE: the selected row is transformed when
the keys agree and untouched otherwise. -/
theorem lookupRow_updateRows (db : Db) (m n : String) (f : ProgramRow → ProgramRow)
    (hf : ∀ r, (f r).name = r.name) :
    (db.updateRows m f).lookupRow n =
      if m = n then (db.lookupRow n).map f else db.lookupRow n := by
  simpa [Db.updateRows, Db.lookupRow] using find?_map_keyed db.programs m n f hf

/-- Two keyed UPDATEs on the same key compose, provided the first preserves
the key column. -/
theorem updateRows_updateRows (db : Db) (m : String) {f g : ProgramRow → ProgramRow}
    (hf : ∀ r, (f r).name = r.name) :
    (db.updateRows m f).updateRows m g = db.updateRows m fun r => g (f r) := by
  simp only [Db.updateRows, List.map_map]
  congr 1
  refine List.map_congr_left fun r _ => ?_
  by_cases h : r.name = m <;> simp [Function.comp, h, hf]

/-- A keyed UPDATE with two pointwise-equal row transforms is the same
operation. -/
theorem updateRows_ext (db : Db) (m : String) {f g : ProgramRow → ProgramRow}
    (h : ∀ r, f r = g r) : db.updateRows m f = db.updateRows m g := by
  rw [funext h]

/-- A keyed UPDATE whose transform is the identity is a no-op. -/
theorem updateRows_id (db : Db) (m : String) : (db.updateRows m fun r => r) = db := by
  simp [Db.updateRows]

/-- A keyed UPDATE touches neither history table. -/
theorem updateRows_histories (db : Db) (m : String) (f : ProgramRow → ProgramRow) :
    (db.updateRows m f).update_check_history = db.update_check_history ∧
      (db.updateRows m f).update_history = db.update_history := by
  simp [Db.updateRows]

/-- With a unique-key `programs` table, the row found for a stored row's name
is that row itself. -/
theorem lookupRow_self (db : Db) (r : ProgramRow)
    (hnodup : (db.programs.map ProgramRow.name).Nodup) (hmem : r ∈ db.programs) :
    db.lookupRow r.name = some r := by
  obtain ⟨programs, h1, h2⟩ := db
  simp only [Db.lookupRow] at *
  clear h1 h2
  induction programs with
  | nil => cases hmem
  | cons q rest ih =>
    rcases List.mem_cons.mp hmem with h | h
    · subst h
      exact List.find?_cons_of_pos _ (by simp)
    · have hq : q.name ≠ r.name := by
        intro heq
        simp only [List.map_cons, List.nodup_cons] at hnodup
        exact hnodup.1 (heq ▸ List.mem_map_of_mem ProgramRow.name h)
      rw [List.find?_cons_of_neg _ (by simp [hq])]
      exact ih (by simp only [List.map_cons, List.nodup_cons] at hnodup; exact hnodup.2) h

/-! Normal forms of the per-program write sequences. -/

/-- The Case A write sequence equals one keyed UPDATE. -/
theorem caseAWrites_eq (check_args : Option CheckArgs) (now : Nat) (db : Db) (nm v : String) :
    caseAWrites check_args now db nm v =
      db.updateRows nm fun r =>
        { r with latest_version := v, latest_version_last_updated := now,
                 notification_sent := false, notification_sent_on := none,
                 current_version := if scvFlag check_args then v else r.current_version,
                 current_version_last_updated :=
                   if scvFlag check_args then now else r.current_version_last_updated } := by
  rcases check_args with _ | ⟨scv, allow⟩
  · simp only [caseAWrites, Db.set_notification_sent, Db.set_notification_sent_on,
      Db.update_latest_version, Db.updateRows, List.map_map]
    congr 1
    refine List.map_congr_left fun r _ => ?_
    by_cases h : r.name = nm <;> simp [Function.comp, h, scvFlag]
  · cases scv <;>
      [simp only [caseAWrites, Db.set_notification_sent, Db.set_notification_sent_on,
          Db.update_latest_version, Db.update_current_version, Db.updateRows, List.map_map,
          Bool.false_eq_true, if_false];
        simp only [caseAWrites, Db.set_notification_sent, Db.set_notification_sent_on,
          Db.update_latest_version, Db.update_current_version, Db.updateRows, List.map_map,
          if_true]] <;>
      (congr 1
       refine List.map_congr_left fun r _ => ?_
       by_cases h : r.name = nm <;> simp [Function.comp, h, scvFlag])

/-- The manual-suppression write equals one keyed UPDATE applying
`caseBTransform`. -/
theorem applyManualSuppression_eq (check_args : Option CheckArgs) (type : UpdateCheckType)
    (db : Db) (nm : String) :
    applyManualSuppression check_args type db nm =
      db.updateRows nm (caseBTransform check_args type) := by
  rcases check_args with _ | ⟨scv, allow⟩ <;> cases type
  · simp only [applyManualSuppression, reduceCtorEq, if_pos rfl]
    exact ((updateRows_ext db nm fun r => by
      simp [caseBTransform, suppressFlag]).trans (updateRows_id db nm)).symm
  · simp only [applyManualSuppression, if_neg (by simp : ¬UpdateCheckType.Timed = UpdateCheckType.Manual)]
    exact ((updateRows_ext db nm fun r => by
      simp [caseBTransform, suppressFlag]).trans (updateRows_id db nm)).symm
  · cases allow
    · simp only [applyManualSuppression, if_pos rfl, Db.set_notification_sent,
        Bool.not_false, if_pos rfl]
      exact updateRows_ext db nm fun r => by simp [caseBTransform, suppressFlag]
    · simp only [applyManualSuppression, if_pos rfl, Bool.not_true,
        if_neg (by simp : ¬(false : Bool) = true)]
      exact ((updateRows_ext db nm fun r => by
        simp [caseBTransform, suppressFlag]).trans (updateRows_id db nm)).symm
  · simp only [applyManualSuppression, if_neg (by simp : ¬UpdateCheckType.Timed = UpdateCheckType.Manual)]
    exact ((updateRows_ext db nm fun r => by
      simp [caseBTransform, suppressFlag]).trans (updateRows_id db nm)).symm

/-- The Case A write sequence followed by the manual-suppression write equals
one keyed UPDATE applying `caseATransform`. -/
theorem stepA_eq (check_args : Option CheckArgs) (type : UpdateCheckType) (now : Nat)
    (db : Db) (nm v : String) :
    applyManualSuppression check_args type (caseAWrites check_args now db nm v) nm =
      db.updateRows nm (caseATransform check_args type now v) := by
  rw [caseAWrites_eq, applyManualSuppression_eq]
  simp only [Db.updateRows, List.map_map]
  congr 1
  refine List.map_congr_left fun r _ => ?_
  by_cases h : r.name = nm
  · by_cases hs : suppressFlag check_args type = true <;>
      simp [Function.comp, h, hs, caseBTransform, caseATransform]
  · simp [Function.comp, h]

/-! Structural lemmas about the per-program loop. -/

/-- The Case A row transform preserves the key column. -/
theorem caseATransform_name (check_args : Option CheckArgs) (type : UpdateCheckType)
    (now : Nat) (v : String) (r : ProgramRow) :
    (caseATransform check_args type now v r).name = r.name := rfl

/-- The Case B row transform preserves the key column. -/
theorem caseBTransform_name (check_args : Option CheckArgs) (type : UpdateCheckType)
    (r : ProgramRow) : (caseBTransform check_args type r).name = r.name := by
  by_cases hs : suppressFlag check_args type = true <;> simp [caseBTransform, hs]

/-- The loop never touches either history table. -/
theorem checkLoop_histories (fetch : Provider → Except String String)
    (check_args : Option CheckArgs) (type : UpdateCheckType) (now : Nat) :
    ∀ (ps : List Program) (db : Db),
      (checkLoop fetch check_args type now db ps).db.update_check_history =
          db.update_check_history ∧
        (checkLoop fetch check_args type now db ps).db.update_history = db.update_history := by
  intro ps
  induction ps with
  | nil => intro db; simp [checkLoop]
  | cons p rest ih =>
    intro db
    cases hf : fetch p.provider with
    | error e => simp [checkLoop, hf]
    | ok v =>
      simp only [checkLoop, hf]
      by_cases hv : v ≠ p.latest_version
      · rw [if_pos hv]
        have h1 := updateRows_histories db p.name (caseATransform check_args type now v)
        rw [← stepA_eq] at h1
        have h2 := ih (applyManualSuppression check_args type
          (caseAWrites check_args now db p.name v) p.name)
        exact ⟨h2.1.trans h1.1, h2.2.trans h1.2⟩
      · rw [if_neg hv]
        by_cases hc : v ≠ p.current_version
        · rw [if_pos hc]
          have h1 := updateRows_histories db p.name (caseBTransform check_args type)
          rw [← applyManualSuppression_eq] at h1
          have h2 := ih (applyManualSuppression check_args type db p.name)
          exact ⟨h2.1.trans h1.1, h2.2.trans h1.2⟩
        · rw [if_neg hc]
          exact ih db

/-- Frame property of the loop: the row of a name that does not occur in the
processed list is untouched, whether or not the loop aborted. -/
theorem checkLoop_frame (fetch : Provider → Except String String)
    (check_args : Option CheckArgs) (type : UpdateCheckType) (now : Nat) :
    ∀ (ps : List Program) (db : Db) (n : String), n ∉ ps.map Program.name →
      (checkLoop fetch check_args type now db ps).db.lookupRow n = db.lookupRow n := by
  intro ps
  induction ps with
  | nil => intro db n _; simp [checkLoop]
  | cons p rest ih =>
    intro db n h
    have hn : ¬ p.name = n := fun he => h (by simp [he])
    have hrest : n ∉ rest.map Program.name := fun hh => h (by simp [hh])
    cases hf : fetch p.provider with
    | error e => simp [checkLoop, hf]
    | ok v =>
      simp only [checkLoop, hf]
      by_cases hv : v ≠ p.latest_version
      · rw [if_pos hv]
        have h1 : (applyManualSuppression check_args type
            (caseAWrites check_args now db p.name v) p.name).lookupRow n = db.lookupRow n := by
          rw [stepA_eq, lookupRow_updateRows _ _ _ _ (caseATransform_name check_args type now v),
            if_neg hn]
        exact (ih _ n hrest).trans h1
      · rw [if_neg hv]
        by_cases hc : v ≠ p.current_version
        · rw [if_pos hc]
          have h1 : (applyManualSuppression check_args type db p.name).lookupRow n =
              db.lookupRow n := by
            rw [applyManualSuppression_eq,
              lookupRow_updateRows _ _ _ _ (caseBTransform_name check_args type), if_neg hn]
          exact (ih _ n hrest).trans h1
        · rw [if_neg hc]
          exact ih db n hrest

/-- Master per-row lemma: under a unique-key table, a program in the processed
list whose row is `r` at loop entry ends the completed loop with its row equal
to `rowAfter r v`, where `v` is the (necessarily successful) fetched version;
and in Case A or Case B it appears in the returned update list. -/
theorem checkLoop_processed (fetch : Provider → Except String String)
    (check_args : Option CheckArgs) (type : UpdateCheckType) (now : Nat) :
    ∀ (ps : List Program) (db : Db) (p : Program) (r : ProgramRow),
      (ps.map Program.name).Nodup → p ∈ ps →
      db.lookupRow p.name = some r → r.toProgram = p →
      (checkLoop fetch check_args type now db ps).error = none →
      ∃ v, fetch p.provider = Except.ok v ∧
        (checkLoop fetch check_args type now db ps).db.lookupRow p.name =
          some (rowAfter check_args type now r v) ∧
        ((v ≠ r.latest_version ∨ v ≠ r.current_version) →
          ∃ q ∈ (checkLoop fetch check_args type now db ps).updates, q.name = p.name) := by
  intro ps
  induction ps with
  | nil => intro db p r _ hmem _ _ _; cases hmem
  | cons q0 rest ih =>
    intro db p r hnodup hmem hlk htp herr
    have hnod2 : q0.name ∉ rest.map Program.name ∧ (rest.map Program.name).Nodup := by
      simpa using hnodup
    have hname : r.name = p.name := congrArg Program.name htp
    have hlat : r.latest_version = p.latest_version := congrArg Program.latest_version htp
    have hcur : r.current_version = p.current_version := congrArg Program.current_version htp
    have hprov : r.provider = p.provider := congrArg Program.provider htp
    rcases List.mem_cons.mp hmem with heq | hmem2
    · subst heq
      cases hf : fetch p.provider with
      | error e => simp [checkLoop, hf] at herr
      | ok v =>
        refine ⟨v, rfl, ?_⟩
        simp only [checkLoop, hf] at herr ⊢
        by_cases hv : v ≠ p.latest_version
        · rw [if_pos hv] at herr ⊢
          have hvr : v ≠ r.latest_version := hlat ▸ hv
          constructor
          · have hfr := checkLoop_frame fetch check_args type now rest
              (applyManualSuppression check_args type
                (caseAWrites check_args now db p.name v) p.name) p.name hnod2.1
            rw [hfr, stepA_eq,
              lookupRow_updateRows _ _ _ _ (caseATransform_name check_args type now v),
              if_pos rfl, hlk, rowAfter, if_pos hvr]
            rfl
          · intro _
            exact ⟨{ p with latest_version := v }, List.mem_cons_self _ _, rfl⟩
        · rw [if_neg hv] at herr ⊢
          have hvr : ¬ v ≠ r.latest_version := hlat ▸ hv
          by_cases hc : v ≠ p.current_version
          · rw [if_pos hc] at herr ⊢
            have hcr : v ≠ r.current_version := hcur ▸ hc
            constructor
            · have hfr := checkLoop_frame fetch check_args type now rest
                (applyManualSuppression check_args type db p.name) p.name hnod2.1
              rw [hfr, applyManualSuppression_eq,
                lookupRow_updateRows _ _ _ _ (caseBTransform_name check_args type),
                if_pos rfl, hlk, rowAfter, if_neg hvr, if_pos hcr]
              rfl
            · intro _
              exact ⟨p, List.mem_cons_self _ _, rfl⟩
          · rw [if_neg hc] at herr ⊢
            have hcr : ¬ v ≠ r.current_version := hcur ▸ hc
            constructor
            · have hfr := checkLoop_frame fetch check_args type now rest db p.name hnod2.1
              rw [hfr, hlk, rowAfter, if_neg hvr, if_neg hcr]
            · intro hd
              cases hd with
              | inl hd => exact absurd hd hvr
              | inr hd => exact absurd hd hcr
    · have hqp : ¬ q0.name = p.name := by
        intro he
        exact hnod2.1 (he ▸ List.mem_map_of_mem Program.name hmem2)
      cases hf0 : fetch q0.provider with
      | error e => simp [checkLoop, hf0] at herr
      | ok w =>
        simp only [checkLoop, hf0] at herr ⊢
        by_cases hw : w ≠ q0.latest_version
        · rw [if_pos hw] at herr ⊢
          have hlk1 : (applyManualSuppression check_args type
              (caseAWrites check_args now db q0.name w) q0.name).lookupRow p.name = some r := by
            rw [stepA_eq, lookupRow_updateRows _ _ _ _ (caseATransform_name check_args type now w),
              if_neg hqp, hlk]
          obtain ⟨v, h1, h2, h3⟩ := ih _ p r hnod2.2 hmem2 hlk1 htp herr
          exact ⟨v, h1, h2, fun hd =>
            let ⟨q, hq, hqn⟩ := h3 hd
            ⟨q, List.mem_cons_of_mem _ hq, hqn⟩⟩
        · rw [if_neg hw] at herr ⊢
          by_cases hc : w ≠ q0.current_version
          · rw [if_pos hc] at herr ⊢
            have hlk1 : (applyManualSuppression check_args type db q0.name).lookupRow p.name =
                some r := by
              rw [applyManualSuppression_eq,
                lookupRow_updateRows _ _ _ _ (caseBTransform_name check_args type),
                if_neg hqp, hlk]
            obtain ⟨v, h1, h2, h3⟩ := ih _ p r hnod2.2 hmem2 hlk1 htp herr
            exact ⟨v, h1, h2, fun hd =>
              let ⟨q, hq, hqn⟩ := h3 hd
              ⟨q, List.mem_cons_of_mem _ hq, hqn⟩⟩
          · rw [if_neg hc] at herr ⊢
            exact ih db p r hnod2.2 hmem2 hlk htp herr

/-! Lemmas connecting the `check_for_updates` wrapper to the loop. -/

/-- Appending a check-history entry does not change any program row. -/
theorem lookupRow_insert_check_history (db : Db) (e : UpdateCheckHistoryEntry) (n : String) :
    (db.insert_update_check_history e).lookupRow n = db.lookupRow n := rfl

/-- The wrapper propagates exactly the loop error. -/
theorem check_for_updates_error (fetch : Provider → Except String String)
    (check_args : Option CheckArgs) (type : UpdateCheckType) (now : Nat) (db : Db) :
    (check_for_updates fetch check_args type now db).error =
      (checkLoop fetch check_args type now db (sortByName db.get_all_programs)).error := by
  unfold check_for_updates
  cases he : (checkLoop fetch check_args type now db (sortByName db.get_all_programs)).error <;>
    simp [he]

/-- On a completed pass, the wrapper database is the loop database plus one
history entry. -/
theorem check_for_updates_db (fetch : Provider → Except String String)
    (check_args : Option CheckArgs) (type : UpdateCheckType) (now : Nat) (db : Db)
    (h : (checkLoop fetch check_args type now db (sortByName db.get_all_programs)).error = none) :
    (check_for_updates fetch check_args type now db).db =
      (checkLoop fetch check_args type now db
          (sortByName db.get_all_programs)).db.insert_update_check_history
        (UpdateCheckHistoryEntry.from_now type
          (checkLoop fetch check_args type now db (sortByName db.get_all_programs)).updates
          now) := by
  unfold check_for_updates
  simp [h]

/-- On a completed pass, the wrapper returns exactly the loop update list. -/
theorem check_for_updates_updates (fetch : Provider → Except String String)
    (check_args : Option CheckArgs) (type : UpdateCheckType) (now : Nat) (db : Db)
    (h : (checkLoop fetch check_args type now db (sortByName db.get_all_programs)).error = none) :
    (check_for_updates fetch check_args type now db).updates =
      (checkLoop fetch check_args type now db (sortByName db.get_all_programs)).updates := by
  unfold check_for_updates
  simp [h]

/-- On an aborted pass, the wrapper database is the loop database: the partial
writes persist and no history entry is added. -/
theorem check_for_updates_db_aborted (fetch : Provider → Except String String)
    (check_args : Option CheckArgs) (type : UpdateCheckType) (now : Nat) (db : Db) (e : String)
    (h : (checkLoop fetch check_args type now db (sortByName db.get_all_programs)).error = some e) :
    (check_for_updates fetch check_args type now db).db =
      (checkLoop fetch check_args type now db (sortByName db.get_all_programs)).db := by
  unfold check_for_updates
  simp [h]

/-- The sorted in-memory program list carries the same names as the table. -/
theorem sorted_names (db : Db) :
    ((sortByName db.get_all_programs).map Program.name).Perm
      (db.programs.map ProgramRow.name) := by
  have hperm : (sortByName db.get_all_programs).Perm db.get_all_programs :=
    List.perm_insertionSort _ _
  have hmap := hperm.map Program.name
  have : db.get_all_programs.map Program.name = db.programs.map ProgramRow.name := by
    simp only [Db.get_all_programs, List.map_map]
    rfl
  rwa [this] at hmap

/-- A stored row appears, projected, in the sorted in-memory list. -/
theorem mem_sorted_of_mem (db : Db) (r : ProgramRow) (hmem : r ∈ db.programs) :
    r.toProgram ∈ sortByName db.get_all_programs :=
  (List.perm_insertionSort _ _).mem_iff.mpr
    (List.mem_map_of_mem ProgramRow.toProgram hmem)

/-- The suppression flag is clear for any Timed pass and for a Manual pass
whose args allow a notification. -/
theorem suppressFlag_false (check_args : Option CheckArgs) (type : UpdateCheckType)
    (h : type = UpdateCheckType.Timed ∨
      ∃ ca, type = UpdateCheckType.Manual ∧ check_args = some ca ∧
        ca.allow_notification = true) :
    suppressFlag check_args type = false := by
  rcases h with h | ⟨ca, ht, ha, hn⟩
  · subst h
    rfl
  · subst ht
    subst ha
    simp [suppressFlag, hn]

/-! Claim theorems. -/

/-- C1: for every program whose fetched version differs from its stored
`latest_version` (Case A), after one completed `check_for_updates` pass the
stored `latest_version` equals the fetched value, `notification_sent` is false
when the pass is Timed or Manual with `allow_notification = true`, and the
program is contained in the returned result list. -/
theorem C1_case_a_records_update (fetch : Provider → Except String String)
    (check_args : Option CheckArgs) (type : UpdateCheckType) (now : Nat) (db : Db)
    (r : ProgramRow) (v : String)
    (hnodup : (db.programs.map ProgramRow.name).Nodup)
    (hmem : r ∈ db.programs)
    (hfetch : fetch r.provider = Except.ok v)
    (hne : v ≠ r.latest_version)
    (hok : (check_for_updates fetch check_args type now db).error = none) :
    ∃ r1, (check_for_updates fetch check_args type now db).db.lookupRow r.name = some r1 ∧
      r1.latest_version = v ∧
      ((type = UpdateCheckType.Timed ∨
          ∃ ca, type = UpdateCheckType.Manual ∧ check_args = some ca ∧
            ca.allow_notification = true) →
        r1.notification_sent = false) ∧
      ∃ q ∈ (check_for_updates fetch check_args type now db).updates, q.name = r.name := by
  have hnps : ((sortByName db.get_all_programs).map Program.name).Nodup :=
    (sorted_names db).nodup_iff.mpr hnodup
  have hpm := mem_sorted_of_mem db r hmem
  have hlk : db.lookupRow r.toProgram.name = some r := lookupRow_self db r hnodup hmem
  have herr : (checkLoop fetch check_args type now db
      (sortByName db.get_all_programs)).error = none := by
    rw [← check_for_updates_error]
    exact hok
  obtain ⟨v0, hv0, hlk2, hupd⟩ :=
    checkLoop_processed fetch check_args type now _ db r.toProgram r hnps hpm hlk rfl herr
  have hveq : v0 = v := by
    have h := hv0.symm.trans hfetch
    exact (Except.ok.injEq _ _).mp h
  subst hveq
  refine ⟨rowAfter check_args type now r v0, ?_, ?_, ?_, ?_⟩
  · rw [check_for_updates_db _ _ _ _ _ herr, lookupRow_insert_check_history]
    exact hlk2
  · rw [rowAfter, if_pos hne]
    rfl
  · intro hmode
    rw [rowAfter, if_pos hne]
    exact suppressFlag_false check_args type hmode
  · rw [check_for_updates_updates _ _ _ _ _ herr]
    exact hupd (Or.inl hne)

/-- C1 witness: the theorem instantiated on a concrete one-program store with
the provider returning a new version. -/
theorem C1_case_a_records_update_witness :
    ∃ r1, (check_for_updates fetch11 none UpdateCheckType.Timed 5 exDb).db.lookupRow
        exRow.name = some r1 ∧
      r1.latest_version = "1.1.0" ∧
      ((UpdateCheckType.Timed = UpdateCheckType.Timed ∨
          ∃ ca, UpdateCheckType.Timed = UpdateCheckType.Manual ∧
            (none : Option CheckArgs) = some ca ∧ ca.allow_notification = true) →
        r1.notification_sent = false) ∧
      ∃ q ∈ (check_for_updates fetch11 none UpdateCheckType.Timed 5 exDb).updates,
        q.name = exRow.name :=
  C1_case_a_records_update fetch11 none UpdateCheckType.Timed 5 exDb exRow "1.1.0"
    (by decide) (by decide) rfl (by decide) (by decide)

/-- C4: exactly one `UpdateCheckHistoryEntry` is appended per completed
`check_for_updates` pass (also when zero programs had an update), the entry
summarizes the full final result set (so it is written after all per-program
processing), and no entry is appended when the pass aborts on a provider
failure, the error propagating to the caller instead. -/
theorem C4_history_exactly_once (fetch : Provider → Except String String)
    (check_args : Option CheckArgs) (type : UpdateCheckType) (now : Nat) (db : Db) :
    ((check_for_updates fetch check_args type now db).error = none →
      (check_for_updates fetch check_args type now db).db.update_check_history =
        db.update_check_history ++
          [UpdateCheckHistoryEntry.from_now type
            (check_for_updates fetch check_args type now db).updates now]) ∧
    (∀ e, (check_for_updates fetch check_args type now db).error = some e →
      (check_for_updates fetch check_args type now db).db.update_check_history =
        db.update_check_history) := by
  constructor
  · intro h
    have herr : (checkLoop fetch check_args type now db
        (sortByName db.get_all_programs)).error = none := by
      rw [← check_for_updates_error]
      exact h
    rw [check_for_updates_db _ _ _ _ _ herr, check_for_updates_updates _ _ _ _ _ herr]
    show (checkLoop fetch check_args type now db
        (sortByName db.get_all_programs)).db.update_check_history ++ _ = _
    rw [(checkLoop_histories fetch check_args type now _ db).1]
  · intro e h
    have herr : (checkLoop fetch check_args type now db
        (sortByName db.get_all_programs)).error = some e := by
      rw [← check_for_updates_error]
      exact h
    rw [check_for_updates_db_aborted _ _ _ _ _ e herr]
    exact (checkLoop_histories fetch check_args type now _ db).1

/-- C4 witness: the completed-pass conjunct on a concrete store with a
successful provider, and the aborted-pass conjunct on the same store with a
failing provider. -/
theorem C4_history_exactly_once_witness :
    (check_for_updates fetch11 none UpdateCheckType.Timed 5 exDb).db.update_check_history =
        exDb.update_check_history ++
          [UpdateCheckHistoryEntry.from_now UpdateCheckType.Timed
            (check_for_updates fetch11 none UpdateCheckType.Timed 5 exDb).updates 5] ∧
      (check_for_updates fetchBoom none UpdateCheckType.Timed 5 exDb).db.update_check_history =
        exDb.update_check_history :=
  ⟨(C4_history_exactly_once fetch11 none UpdateCheckType.Timed 5 exDb).1 (by decide),
   (C4_history_exactly_once fetchBoom none UpdateCheckType.Timed 5 exDb).2 "boom" (by decide)⟩

/-- Appending an update-history entry does not change any program row. -/
theorem lookupRow_insert_performed_update (db : Db) (e : UpdateHistoryEntry) (n : String) :
    (db.insert_performed_update e).lookupRow n = db.lookupRow n := rfl

/-- C7: applying an update to a program whose `current_version` differs from
`latest_version` sets `current_version := latest_version` and appends exactly
one `UpdateHistoryEntry` whose `old_version` is the pre-call `current_version`
and whose `updated_to` is the `latest_version`. -/
theorem C7_apply_update (db : Db) (name : String) (now : Nat) (p : Program)
    (hp : db.get_program name = some p)
    (hne : ¬ p.current_version = p.latest_version) :
    (update db name now).update_history =
        db.update_history ++
          [{ date := now, name := p.name, old_version := p.current_version,
             updated_to := p.latest_version }] ∧
      ∃ r1, (update db name now).lookupRow name = some r1 ∧
        r1.current_version = p.latest_version ∧
        r1.current_version_last_updated = now := by
  obtain ⟨r, hr, hrp⟩ : ∃ r, db.lookupRow name = some r ∧ r.toProgram = p := by
    simpa [Db.get_program, Option.map_eq_some'] using hp
  constructor
  · simp only [update, hp, if_neg hne, Db.insert_performed_update]
    rw [show (db.update_current_version name p.latest_version now).update_history =
      db.update_history from (updateRows_histories db name _).2]
  · refine ⟨{ r with
        current_version := p.latest_version
        current_version_last_updated := now }, ?_, rfl, rfl⟩
    simp only [update, hp, if_neg hne]
    rw [lookupRow_insert_performed_update, Db.update_current_version, lookupRow_updateRows]
    · rw [if_pos rfl, hr]
      rfl
    · intro q
      rfl

/-- C7 witness: the theorem instantiated on a concrete store holding a program
with a recorded but unapplied update. -/
theorem C7_apply_update_witness :
    (update exDbPending "alpha" 9).update_history =
        exDbPending.update_history ++
          [{ date := 9, name := "alpha", old_version := "1.0.0", updated_to := "1.1.0" }] ∧
      ∃ r1, (update exDbPending "alpha" 9).lookupRow "alpha" = some r1 ∧
        r1.current_version = "1.1.0" ∧
        r1.current_version_last_updated = 9 :=
  C7_apply_update exDbPending "alpha" 9 exRowPending.toProgram (by decide) (by decide)

/-! Lemmas for the `check_args = None` frame property. -/

/-- The no-args row evolution is reflexive. -/
theorem noArgsRowEvolution_refl (r : ProgramRow) : noArgsRowEvolution r r := Or.inl rfl

/-- The no-args row evolution is transitive. -/
theorem noArgsRowEvolution_trans {r r1 r2 : ProgramRow}
    (h1 : noArgsRowEvolution r r1) (h2 : noArgsRowEvolution r1 r2) :
    noArgsRowEvolution r r2 := by
  rcases h2 with h2 | h2
  · subst h2
    exact h1
  · rcases h1 with h1 | h1
    · subst h1
      exact Or.inr h2
    · exact Or.inr ⟨h2.1.trans h1.1, h2.2.1.trans h1.2.1, h2.2.2.1.trans h1.2.2.1,
        h2.2.2.2.1.trans h1.2.2.2.1, h2.2.2.2.2.1, h2.2.2.2.2.2⟩

/-- With no check args the suppression flag is always clear. -/
theorem suppressFlag_none (type : UpdateCheckType) : suppressFlag none type = false := by
  cases type <;> rfl

/-- With no check args the Case A transform matches the no-args evolution. -/
theorem noArgsRowEvolution_caseA (type : UpdateCheckType) (now : Nat) (v : String)
    (r : ProgramRow) : noArgsRowEvolution r (caseATransform none type now v r) :=
  Or.inr ⟨rfl, rfl, by simp [caseATransform, scvFlag], by simp [caseATransform, scvFlag],
    by simp [caseATransform, suppressFlag_none], rfl⟩

/-- With no check args the Case B transform is the identity. -/
theorem caseBTransform_none (type : UpdateCheckType) (r : ProgramRow) :
    caseBTransform none type r = r := by
  simp [caseBTransform, suppressFlag_none]

/-- With no check args the manual-suppression site never writes. -/
theorem applyManualSuppression_none (type : UpdateCheckType) (db : Db) (nm : String) :
    applyManualSuppression none type db nm = db := by
  cases type <;> rfl

/-- Loop-level no-args frame: with `check_args = None`, every row of the
resulting database (also of an aborted pass) evolved from a stored row by the
no-args evolution. -/
theorem checkLoop_noArgs (fetch : Provider → Except String String)
    (type : UpdateCheckType) (now : Nat) :
    ∀ (ps : List Program) (db : Db) (n : String) (r1 : ProgramRow),
      (checkLoop fetch none type now db ps).db.lookupRow n = some r1 →
      ∃ r, db.lookupRow n = some r ∧ noArgsRowEvolution r r1 := by
  intro ps
  induction ps with
  | nil =>
    intro db n r1 h
    exact ⟨r1, h, noArgsRowEvolution_refl r1⟩
  | cons p rest ih =>
    intro db n r1 h
    cases hf : fetch p.provider with
    | error e =>
      simp only [checkLoop, hf] at h
      exact ⟨r1, h, noArgsRowEvolution_refl r1⟩
    | ok v =>
      simp only [checkLoop, hf] at h
      by_cases hv : v ≠ p.latest_version
      · rw [if_pos hv] at h
        obtain ⟨rm, hrm, hev⟩ := ih _ n r1 h
        rw [stepA_eq, lookupRow_updateRows _ _ _ _ (caseATransform_name none type now v)] at hrm
        by_cases hpn : p.name = n
        · rw [if_pos hpn] at hrm
          obtain ⟨r, hr, hrT⟩ := Option.map_eq_some'.mp hrm
          exact ⟨r, hr,
            noArgsRowEvolution_trans (hrT ▸ noArgsRowEvolution_caseA type now v r) hev⟩
        · rw [if_neg hpn] at hrm
          exact ⟨rm, hrm, hev⟩
      · rw [if_neg hv] at h
        by_cases hc : v ≠ p.current_version
        · rw [if_pos hc] at h
          obtain ⟨rm, hrm, hev⟩ := ih _ n r1 h
          rw [applyManualSuppression_none] at hrm
          exact ⟨rm, hrm, hev⟩
        · rw [if_neg hc] at h
          exact ih db n r1 h

/-- C10: a `check_for_updates` invocation with `check_args = None` (the only
way the Timed scheduler invokes it) never writes `current_version` or
`current_version_last_updated`, and never sets `notification_sent` to true:
every resulting row either equals its stored original or differs only by the
Case A write, which preserves the current-version fields and leaves the
notification flag reset to false with `notification_sent_on` cleared. -/
theorem C10_none_args_frame (fetch : Provider → Except String String)
    (type : UpdateCheckType) (now : Nat) (db : Db) (n : String) (r1 : ProgramRow)
    (h : (check_for_updates fetch none type now db).db.lookupRow n = some r1) :
    ∃ r, db.lookupRow n = some r ∧ noArgsRowEvolution r r1 := by
  have heq : (check_for_updates fetch none type now db).db.lookupRow n =
      (checkLoop fetch none type now db (sortByName db.get_all_programs)).db.lookupRow n := by
    unfold check_for_updates
    cases he : (checkLoop fetch none type now db (sortByName db.get_all_programs)).error <;>
      simp [he, lookupRow_insert_check_history]
  rw [heq] at h
  exact checkLoop_noArgs fetch type now _ db n r1 h

/-- C10 witness: the theorem instantiated on a concrete Timed pass that hits
Case A, with the resulting row computed explicitly. -/
theorem C10_none_args_frame_witness :
    ∃ r, exDb.lookupRow "alpha" = some r ∧
      noArgsRowEvolution r
        { name := "alpha", current_version := "1.0.0", current_version_last_updated := 0,
          latest_version := "1.1.0", latest_version_last_updated := 5,
          provider := Provider.github "acme/alpha", notification_sent := false,
          notification_sent_on := none } :=
  C10_none_args_frame fetch11 UpdateCheckType.Timed 5 exDb "alpha" _ (by decide)

/-! Lemmas about the notification dispatcher. -/

/-- The per-program marking after a successful dispatch, at `lookupRow`
granularity: rows named in the list get `notification_sent = true` and
`notification_sent_on = now`, all other rows are untouched. -/
theorem lookupRow_markSent (now : Nat) :
    ∀ (ns : List String) (db : Db) (n : String),
      (markSent now db ns).lookupRow n =
        if n ∈ ns then
          (db.lookupRow n).map fun r =>
            { r with notification_sent := true, notification_sent_on := some now }
        else db.lookupRow n := by
  intro ns
  induction ns with
  | nil => intro db n; simp [markSent]
  | cons m rest ih =>
    intro db n
    have hcomp : (db.set_notification_sent m true).set_notification_sent_on m (some now) =
        db.updateRows m fun r =>
          { r with notification_sent := true, notification_sent_on := some now } := by
      simp only [Db.set_notification_sent, Db.set_notification_sent_on, Db.updateRows,
        List.map_map]
      congr 1
      refine List.map_congr_left fun r _ => ?_
      by_cases h : r.name = m <;> simp [Function.comp, h]
    have hlu := lookupRow_updateRows db m n
      (fun r => { r with notification_sent := true, notification_sent_on := some now })
      (fun r => rfl)
    simp only [markSent]
    rw [hcomp, ih, hlu]
    by_cases hnm : m = n
    · subst hnm
      by_cases hmem : m ∈ rest
      · rw [if_pos hmem, if_pos (List.mem_cons_self m rest), if_pos rfl]
        cases db.lookupRow m <;> rfl
      · rw [if_neg hmem, if_pos rfl, if_pos (List.mem_cons_self m rest)]
    · by_cases hmem : n ∈ rest
      · rw [if_pos hmem, if_neg hnm, if_pos (List.mem_cons_of_mem m hmem)]
      · rw [if_neg hmem, if_neg hnm,
          if_neg (fun hx => (List.mem_cons.mp hx).elim (fun he => hnm he.symm) hmem)]

/-- If some program of the input list has no row in the store, the read loop
fails with a missing-program error. -/
theorem notifyLoop_missing (db : Db) :
    ∀ (ps : List Program), (∃ p ∈ ps, db.lookupRow p.name = none) →
      ∃ nm, notifyLoop db ps = Except.error (NotifyError.missingProgram nm) := by
  intro ps
  induction ps with
  | nil => rintro ⟨p, hp, _⟩; cases hp
  | cons p rest ih =>
    rintro ⟨q, hq, hql⟩
    cases hl : db.get_notification_info p.name with
    | none => exact ⟨p.name, by simp [notifyLoop, hl]⟩
    | some info =>
      have hqrest : q ∈ rest := by
        rcases List.mem_cons.mp hq with he | hr
        · exfalso
          subst he
          rw [Db.get_notification_info, hql] at hl
          cases hl
        · exact hr
      obtain ⟨nm, herr⟩ := ih ⟨q, hqrest, hql⟩
      by_cases hs : info.sent = true
      · exact ⟨nm, by simp [notifyLoop, hl, hs, herr]⟩
      · exact ⟨nm, by simp [notifyLoop, hl, hs, herr]⟩

/-- Every program selected by the read loop for the outbound message has a
stored row with a clear notification flag. -/
theorem notifyLoop_toNotify (db : Db) :
    ∀ (ps toNotify : List Program) (msg : String),
      notifyLoop db ps = Except.ok (toNotify, msg) →
      ∀ q ∈ toNotify, ∃ r, db.lookupRow q.name = some r ∧ r.notification_sent = false := by
  intro ps
  induction ps with
  | nil =>
    intro toNotify msg h q hq
    simp only [notifyLoop, Except.ok.injEq, Prod.mk.injEq] at h
    rw [← h.1] at hq
    cases hq
  | cons p rest ih =>
    intro toNotify msg h q hq
    cases hl : db.get_notification_info p.name with
    | none => simp [notifyLoop, hl] at h
    | some info =>
      by_cases hs : info.sent = true
      · rw [show notifyLoop db (p :: rest) = notifyLoop db rest by
          simp [notifyLoop, hl, hs]] at h
        exact ih toNotify msg h q hq
      · simp only [notifyLoop, hl] at h
        rw [if_neg hs] at h
        cases hrest : notifyLoop db rest with
        | error e => rw [hrest] at h; simp at h
        | ok val =>
          obtain ⟨ps1, msg1⟩ := val
          rw [hrest] at h
          simp only [Except.ok.injEq, Prod.mk.injEq] at h
          rw [← h.1] at hq
          rcases List.mem_cons.mp hq with he | hr
          · subst he
            obtain ⟨r, hr1, hr2⟩ := Option.map_eq_some'.mp hl
            refine ⟨r, hr1, ?_⟩
            have hsr : info.sent = r.notification_sent := by rw [← hr2]
            simp only [Bool.not_eq_true] at hs
            rw [← hsr, hs]
          · exact ih ps1 msg1 hrest q hr

/-- The outbound-message member list computed by `send_update_notification`
does not depend on the dispatch outcome or the clock. -/
theorem send_update_notification_notified_indep (d1 d2 : Bool) (n1 n2 : Nat) (db : Db)
    (programs : List Program) :
    (send_update_notification d1 n1 db programs).notified =
      (send_update_notification d2 n2 db programs).notified := by
  unfold send_update_notification
  cases h : notifyLoop db programs with
  | error e => rfl
  | ok val =>
    obtain ⟨toNotify, msg⟩ := val
    by_cases he : toNotify.isEmpty <;> cases d1 <;> cases d2 <;> simp [he]

/-- A failed dispatch leaves the whole store untouched. -/
theorem send_update_notification_failed_db (now : Nat) (db : Db) (programs : List Program) :
    (send_update_notification false now db programs).db = db := by
  unfold send_update_notification
  cases h : notifyLoop db programs with
  | error e => rfl
  | ok val =>
    obtain ⟨toNotify, msg⟩ := val
    by_cases he : toNotify.isEmpty <;> simp [he]

/-- When the read loop selected a non-empty set, the outbound-message member
list of `send_update_notification` is the names of that set, regardless of the
dispatch outcome. -/
theorem send_notified_eq (dOk : Bool) (now : Nat) (db : Db) (programs toNotify : List Program)
    (msg : String) (h : notifyLoop db programs = Except.ok (toNotify, msg))
    (hne : ¬ toNotify.isEmpty = true) :
    (send_update_notification dOk now db programs).notified = toNotify.map Program.name := by
  cases dOk <;> simp [send_update_notification, h, hne]

/-- C5: in `send_update_notification`, on successful dispatch every program
included in the outbound message ends with `notification_sent = true` and
`notification_sent_on = now`; on dispatch failure no row is modified, so a
subsequent call with the same input set computes the same outbound-message
member list. -/
theorem C5_notify_success_and_retry (db : Db) (programs : List Program) (now now2 : Nat)
    (d2 : Bool) :
    ((send_update_notification true now db programs).error = none →
      ∀ nm ∈ (send_update_notification true now db programs).notified,
        ∃ r1, (send_update_notification true now db programs).db.lookupRow nm = some r1 ∧
          r1.notification_sent = true ∧ r1.notification_sent_on = some now) ∧
    (send_update_notification false now db programs).db = db ∧
    (send_update_notification d2 now2
        (send_update_notification false now db programs).db programs).notified =
      (send_update_notification false now db programs).notified := by
  refine ⟨?_, send_update_notification_failed_db now db programs, ?_⟩
  · intro herr nm hnm
    cases h : notifyLoop db programs with
    | error e =>
      rw [show (send_update_notification true now db programs).error = some e by
        simp [send_update_notification, h]] at herr
      cases herr
    | ok val =>
      obtain ⟨toNotify, msg⟩ := val
      by_cases he : toNotify.isEmpty = true
      · rw [show (send_update_notification true now db programs).notified = [] by
          simp [send_update_notification, h, he]] at hnm
        cases hnm
      · rw [send_notified_eq true now db programs toNotify msg h he] at hnm
        obtain ⟨q, hq, hqn⟩ := List.mem_map.mp hnm
        obtain ⟨r, hr, _⟩ := notifyLoop_toNotify db programs toNotify msg h q hq
        rw [hqn] at hr
        refine ⟨{ r with notification_sent := true, notification_sent_on := some now },
          ?_, rfl, rfl⟩
        rw [show (send_update_notification true now db programs).db =
            markSent now db (toNotify.map Program.name) by
          simp [send_update_notification, h, he]]
        rw [lookupRow_markSent now (toNotify.map Program.name) db nm, if_pos hnm, hr]
        rfl
  · rw [send_update_notification_failed_db now db programs]
    exact send_update_notification_notified_indep d2 false now2 now db programs

/-- C5 witness: a successful dispatch on a concrete store with one pending
update marks that program as notified at the dispatch time. -/
theorem C5_notify_success_and_retry_witness :
    ∃ r1, (send_update_notification true 7 exDbPending
        [exRowPending.toProgram]).db.lookupRow "alpha" = some r1 ∧
      r1.notification_sent = true ∧ r1.notification_sent_on = some 7 :=
  (C5_notify_success_and_retry exDbPending [exRowPending.toProgram] 7 0 false).1
    (by decide) "alpha" (by decide)

/-- C6: in `send_update_notification`, a program of the input set missing from
the store is a hard error that aborts before any write or network call; every
program already flagged `notification_sent = true` is excluded from the
outbound message and its row is untouched; and when the filtered set is empty
no network call is made. -/
theorem C6_notify_filtering (dOk : Bool) (now : Nat) (db : Db) (programs : List Program) :
    ((∃ p ∈ programs, db.lookupRow p.name = none) →
      (∃ nm, (send_update_notification dOk now db programs).error =
          some (NotifyError.missingProgram nm)) ∧
        (send_update_notification dOk now db programs).db = db ∧
        (send_update_notification dOk now db programs).network_called = false) ∧
    (∀ p ∈ programs, (db.lookupRow p.name).map ProgramRow.notification_sent = some true →
      p.name ∉ (send_update_notification dOk now db programs).notified ∧
        (send_update_notification dOk now db programs).db.lookupRow p.name =
          db.lookupRow p.name) ∧
    ((send_update_notification dOk now db programs).notified = [] →
      (send_update_notification dOk now db programs).network_called = false) := by
  refine ⟨?_, ?_, ?_⟩
  · intro hme
    obtain ⟨nm, herr⟩ := notifyLoop_missing db programs hme
    exact ⟨⟨nm, by simp [send_update_notification, herr]⟩,
      by simp [send_update_notification, herr],
      by simp [send_update_notification, herr]⟩
  · intro p hp hsent
    cases h : notifyLoop db programs with
    | error e =>
      constructor
      · intro hmem
        rw [show (send_update_notification dOk now db programs).notified = [] by
          simp [send_update_notification, h]] at hmem
        cases hmem
      · rw [show (send_update_notification dOk now db programs).db = db by
          simp [send_update_notification, h]]
    | ok val =>
      obtain ⟨toNotify, msg⟩ := val
      by_cases he : toNotify.isEmpty = true
      · constructor
        · intro hmem
          rw [show (send_update_notification dOk now db programs).notified = [] by
            simp [send_update_notification, h, he]] at hmem
          cases hmem
        · rw [show (send_update_notification dOk now db programs).db = db by
            simp [send_update_notification, h, he]]
      · have hnotin : p.name ∉ toNotify.map Program.name := by
          intro hmem'
          obtain ⟨q, hq, hqn⟩ := List.mem_map.mp hmem'
          obtain ⟨r, hr, hrs⟩ := notifyLoop_toNotify db programs toNotify msg h q hq
          rw [← hqn, hr] at hsent
          rw [show (some r).map ProgramRow.notification_sent =
            some r.notification_sent from rfl, hrs] at hsent
          cases hsent
        constructor
        · intro hmem
          rw [send_notified_eq dOk now db programs toNotify msg h he] at hmem
          exact hnotin hmem
        · cases dOk
          · rw [show (send_update_notification false now db programs).db = db from
              send_update_notification_failed_db now db programs]
          · rw [show (send_update_notification true now db programs).db =
                markSent now db (toNotify.map Program.name) by
              simp [send_update_notification, h, he]]
            rw [lookupRow_markSent now (toNotify.map Program.name) db p.name, if_neg hnotin]
  · intro hne0
    cases h : notifyLoop db programs with
    | error e => simp [send_update_notification, h]
    | ok val =>
      obtain ⟨toNotify, msg⟩ := val
      by_cases he : toNotify.isEmpty = true
      · simp [send_update_notification, h, he]
      · exfalso
        rw [send_notified_eq dOk now db programs toNotify msg h he] at hne0
        cases toNotify with
        | nil => exact he rfl
        | cons a l => cases hne0

/-- C6 witness: on a concrete store, a ghost program aborts the call before
any network contact, the already-notified program is excluded untouched, and
the empty-filter conjunct fires on the abort. -/
theorem C6_notify_filtering_witness :
    ((∃ nm, (send_update_notification true 7 exDb2
        [exRowSent.toProgram, exGhost]).error = some (NotifyError.missingProgram nm)) ∧
      (send_update_notification true 7 exDb2 [exRowSent.toProgram, exGhost]).db = exDb2 ∧
      (send_update_notification true 7 exDb2
        [exRowSent.toProgram, exGhost]).network_called = false) ∧
    ("beta" ∉ (send_update_notification true 7 exDb2
        [exRowSent.toProgram, exGhost]).notified) ∧
    (send_update_notification true 7 exDb2
        [exRowSent.toProgram, exGhost]).network_called = false := by
  have h := C6_notify_filtering true 7 exDb2 [exRowSent.toProgram, exGhost]
  exact ⟨h.1 ⟨exGhost, by decide, by decide⟩,
    (h.2.1 exRowSent.toProgram (by decide) (by decide)).1,
    h.2.2 (by decide)⟩

/-! Lemmas for the second-pass (idempotence) analysis. -/

/-- Membership in an updated table: every row of the result is a stored row,
transformed iff its key matched. -/
theorem mem_updateRows (db : Db) (m : String) (f : ProgramRow → ProgramRow)
    (row1 : ProgramRow) :
    row1 ∈ (db.updateRows m f).programs ↔
      ∃ row ∈ db.programs, row1 = if row.name = m then f row else row := by
  simp only [Db.updateRows, List.mem_map]
  constructor
  · rintro ⟨row, hrow, hdef⟩
    exact ⟨row, hrow, hdef.symm⟩
  · rintro ⟨row, hrow, hdef⟩
    exact ⟨row, hrow, hdef.symm⟩

/-- The Case B transform changes at most the notification flag. -/
theorem caseBTransform_fields (check_args : Option CheckArgs) (type : UpdateCheckType)
    (r : ProgramRow) :
    (caseBTransform check_args type r).latest_version = r.latest_version ∧
      (caseBTransform check_args type r).provider = r.provider := by
  by_cases hs : suppressFlag check_args type = true <;> simp [caseBTransform, hs]

/-- In a Timed pass the manual-suppression site never writes, whatever the
check args are. -/
theorem applyManualSuppression_timed (check_args : Option CheckArgs) (db : Db) (nm : String) :
    applyManualSuppression check_args UpdateCheckType.Timed db nm = db := rfl

/-- A completed loop leaves every resulting row in sync with its provider:
its stored `latest_version` is exactly what the provider returns. The two
invariants relate rows still to be processed to their in-memory list entry and
require rows already out of scope to be synced. -/
theorem checkLoop_synced_all (fetch : Provider → Except String String)
    (check_args : Option CheckArgs) (type : UpdateCheckType) (now : Nat) :
    ∀ (ps : List Program) (db : Db),
      (ps.map Program.name).Nodup →
      (∀ row ∈ db.programs, row.name ∈ ps.map Program.name →
        ∃ p ∈ ps, p.name = row.name ∧ p.latest_version = row.latest_version ∧
          p.provider = row.provider) →
      (∀ row ∈ db.programs, row.name ∉ ps.map Program.name →
        fetch row.provider = Except.ok row.latest_version) →
      (checkLoop fetch check_args type now db ps).error = none →
      ∀ row1 ∈ (checkLoop fetch check_args type now db ps).db.programs,
        fetch row1.provider = Except.ok row1.latest_version := by
  intro ps
  induction ps with
  | nil =>
    intro db _ _ hsync _ row1 hrow1
    exact hsync row1 hrow1 (by simp)
  | cons q0 rest ih =>
    intro db hnodup hcorr hsync herr row1 hrow1
    have hnod2 : q0.name ∉ rest.map Program.name ∧ (rest.map Program.name).Nodup := by
      simpa using hnodup
    have hq0corr : ∀ row ∈ db.programs, row.name = q0.name →
        q0.latest_version = row.latest_version ∧ q0.provider = row.provider := by
      intro row hrow hname
      obtain ⟨p, hp, hpn, hpl, hpp⟩ := hcorr row hrow (by rw [hname]; simp)
      rcases List.mem_cons.mp hp with he | hr
      · subst he
        exact ⟨hpl, hpp⟩
      · exfalso
        exact hnod2.1 ((hpn.trans hname) ▸ List.mem_map_of_mem Program.name hr)
    cases hf : fetch q0.provider with
    | error e => simp [checkLoop, hf] at herr
    | ok v =>
      simp only [checkLoop, hf] at herr hrow1
      by_cases hv : v ≠ q0.latest_version
      · rw [if_pos hv] at herr hrow1
        rw [stepA_eq] at herr hrow1
        refine ih (db.updateRows q0.name (caseATransform check_args type now v))
          hnod2.2 ?_ ?_ herr row1 hrow1
        · intro row2 hrow2 hname2
          obtain ⟨row, hrow, hdef⟩ := (mem_updateRows db q0.name _ row2).mp hrow2
          by_cases hrn : row.name = q0.name
          · exfalso
            rw [if_pos hrn] at hdef
            rw [hdef] at hname2
            rw [caseATransform_name] at hname2
            exact hnod2.1 (hrn ▸ hname2)
          · rw [if_neg hrn] at hdef
            subst hdef
            obtain ⟨p, hp, hpn, hpl, hpp⟩ := hcorr row2 hrow (by simp only [List.map_cons, List.mem_cons]; exact Or.inr hname2)
            rcases List.mem_cons.mp hp with he | hr
            · exfalso
              subst he
              exact hrn hpn.symm
            · exact ⟨p, hr, hpn, hpl, hpp⟩
        · intro row2 hrow2 hnot2
          obtain ⟨row, hrow, hdef⟩ := (mem_updateRows db q0.name _ row2).mp hrow2
          by_cases hrn : row.name = q0.name
          · rw [if_pos hrn] at hdef
            subst hdef
            show fetch row.provider = Except.ok v
            obtain ⟨_, hpv⟩ := hq0corr row hrow hrn
            rw [← hpv]
            exact hf
          · rw [if_neg hrn] at hdef
            subst hdef
            refine hsync row2 hrow ?_
            simp only [List.map_cons, List.mem_cons]
            rintro (he | hr)
            · exact hrn he
            · exact hnot2 hr
      · rw [if_neg hv] at herr hrow1
        have hvl : v = q0.latest_version := not_not.mp hv
        by_cases hc : v ≠ q0.current_version
        · rw [if_pos hc] at herr hrow1
          rw [applyManualSuppression_eq] at herr hrow1
          refine ih (db.updateRows q0.name (caseBTransform check_args type))
            hnod2.2 ?_ ?_ herr row1 hrow1
          · intro row2 hrow2 hname2
            obtain ⟨row, hrow, hdef⟩ := (mem_updateRows db q0.name _ row2).mp hrow2
            by_cases hrn : row.name = q0.name
            · exfalso
              rw [if_pos hrn] at hdef
              rw [hdef, caseBTransform_name] at hname2
              exact hnod2.1 (hrn ▸ hname2)
            · rw [if_neg hrn] at hdef
              subst hdef
              obtain ⟨p, hp, hpn, hpl, hpp⟩ := hcorr row2 hrow (by simp only [List.map_cons, List.mem_cons]; exact Or.inr hname2)
              rcases List.mem_cons.mp hp with he | hr
              · exfalso
                subst he
                exact hrn hpn.symm
              · exact ⟨p, hr, hpn, hpl, hpp⟩
          · intro row2 hrow2 hnot2
            obtain ⟨row, hrow, hdef⟩ := (mem_updateRows db q0.name _ row2).mp hrow2
            by_cases hrn : row.name = q0.name
            · rw [if_pos hrn] at hdef
              subst hdef
              rw [(caseBTransform_fields check_args type row).2,
                (caseBTransform_fields check_args type row).1]
              obtain ⟨hl, hpv⟩ := hq0corr row hrow hrn
              rw [← hpv, hf, hvl, hl]
            · rw [if_neg hrn] at hdef
              subst hdef
              refine hsync row2 hrow ?_
              simp only [List.map_cons, List.mem_cons]
              rintro (he | hr)
              · exact hrn he
              · exact hnot2 hr
        · rw [if_neg hc] at herr hrow1
          refine ih db hnod2.2 ?_ ?_ herr row1 hrow1
          · intro row2 hrow2 hname2
            obtain ⟨p, hp, hpn, hpl, hpp⟩ := hcorr row2 hrow2 (by simp only [List.map_cons, List.mem_cons]; exact Or.inr hname2)
            rcases List.mem_cons.mp hp with he | hr
            · exfalso
              subst he
              exact hnod2.1 (hpn ▸ hname2)
            · exact ⟨p, hr, hpn, hpl, hpp⟩
          · intro row2 hrow2 hnot2
            by_cases hrn : row2.name = q0.name
            · obtain ⟨hl, hpv⟩ := hq0corr row2 hrow2 hrn
              rw [← hpv, hf, hvl, hl]
            · refine hsync row2 hrow2 ?_
              simp only [List.map_cons, List.mem_cons]
              rintro (he | hr)
              · exact hrn he
              · exact hnot2 hr

/-- A Timed loop over programs whose provider returns exactly the stored
latest version changes nothing and returns the Case B programs: those whose
latest version differs from their current version. -/
theorem checkLoop_timed_synced (fetch : Provider → Except String String)
    (check_args : Option CheckArgs) (now : Nat) :
    ∀ (ps : List Program) (db : Db),
      (∀ p ∈ ps, fetch p.provider = Except.ok p.latest_version) →
      checkLoop fetch check_args UpdateCheckType.Timed now db ps =
        { db := db,
          updates := ps.filter fun p => decide (p.latest_version ≠ p.current_version),
          error := none } := by
  intro ps
  induction ps with
  | nil => intro db _; simp [checkLoop]
  | cons p rest ih =>
    intro db h
    have hf := h p (List.mem_cons_self p rest)
    have hrest : ∀ q ∈ rest, fetch q.provider = Except.ok q.latest_version :=
      fun q hq => h q (List.mem_cons_of_mem p hq)
    simp only [checkLoop, hf]
    rw [if_neg (fun hx : p.latest_version ≠ p.latest_version => hx rfl)]
    by_cases hc : p.latest_version ≠ p.current_version
    · rw [if_pos hc, applyManualSuppression_timed, ih db hrest]
      simp [List.filter_cons, hc]
    · rw [if_neg hc, ih db hrest]
      simp [List.filter_cons, hc]

/-- After any completed pass over a unique-key table, every stored row is in
sync with its provider. -/
theorem check_pass_synced (fetch : Provider → Except String String)
    (check_args : Option CheckArgs) (type : UpdateCheckType) (now : Nat) (db : Db)
    (hnodup : (db.programs.map ProgramRow.name).Nodup)
    (hok : (check_for_updates fetch check_args type now db).error = none) :
    ∀ row ∈ (check_for_updates fetch check_args type now db).db.programs,
      fetch row.provider = Except.ok row.latest_version := by
  have herr : (checkLoop fetch check_args type now db
      (sortByName db.get_all_programs)).error = none := by
    rw [← check_for_updates_error]
    exact hok
  intro row hrow
  have hrow2 : row ∈ (checkLoop fetch check_args type now db
      (sortByName db.get_all_programs)).db.programs := by
    rw [check_for_updates_db _ _ _ _ _ herr] at hrow
    exact hrow
  refine checkLoop_synced_all fetch check_args type now _ db
    ((sorted_names db).nodup_iff.mpr hnodup) ?_ ?_ herr row hrow2
  · intro row2 hrow2 _
    exact ⟨row2.toProgram, mem_sorted_of_mem db row2 hrow2, rfl, rfl, rfl⟩
  · intro row2 hrow2 hnot
    exact absurd ((sorted_names db).mem_iff.mpr
      (List.mem_map_of_mem ProgramRow.name hrow2)) hnot

/-- C2 counterexample: with the provider returning the same version string on
both passes, the second Timed pass still returns the Case B program (its
recorded update has not been applied), so the second result list is not
empty. -/
theorem C2_counterexample :
    (check_for_updates fetch11 none UpdateCheckType.Timed 2
      (check_for_updates fetch11 none UpdateCheckType.Timed 1 exDbPending).db).updates ≠
      [] := by decide

/-- C2 (amended): running `check_for_updates` twice in a row with the provider
returning the same version both times, a second Timed pass completes, leaves
every Program row unchanged, and returns an empty result set exactly when
every program's `latest_version` equals its `current_version`; the Case B
programs (recorded but unapplied updates) are returned again. -/
theorem C2_second_pass (fetch : Provider → Except String String)
    (check_args : Option CheckArgs) (type : UpdateCheckType) (now1 now2 : Nat) (db : Db)
    (hnodup : (db.programs.map ProgramRow.name).Nodup)
    (h1 : (check_for_updates fetch check_args type now1 db).error = none) :
    (check_for_updates fetch none UpdateCheckType.Timed now2
        (check_for_updates fetch check_args type now1 db).db).error = none ∧
      (check_for_updates fetch none UpdateCheckType.Timed now2
          (check_for_updates fetch check_args type now1 db).db).db.programs =
        (check_for_updates fetch check_args type now1 db).db.programs ∧
      ((check_for_updates fetch none UpdateCheckType.Timed now2
          (check_for_updates fetch check_args type now1 db).db).updates = [] ↔
        ∀ row ∈ (check_for_updates fetch check_args type now1 db).db.programs,
          row.latest_version = row.current_version) := by
  have hsync := check_pass_synced fetch check_args type now1 db hnodup h1
  set db1 := (check_for_updates fetch check_args type now1 db).db with hdb1
  have hps2 : ∀ p ∈ sortByName db1.get_all_programs,
      fetch p.provider = Except.ok p.latest_version := by
    intro p hp
    have hp2 : p ∈ db1.get_all_programs := (List.perm_insertionSort _ _).mem_iff.mp hp
    obtain ⟨row, hrow, hdef⟩ := List.mem_map.mp hp2
    rw [← hdef]
    exact hsync row hrow
  have hloop := checkLoop_timed_synced fetch none now2 (sortByName db1.get_all_programs)
    db1 hps2
  have herr2 : (checkLoop fetch none UpdateCheckType.Timed now2 db1
      (sortByName db1.get_all_programs)).error = none := by
    rw [hloop]
  refine ⟨?_, ?_, ?_⟩
  · rw [check_for_updates_error, hloop]
  · rw [check_for_updates_db _ _ _ _ _ herr2]
    show (checkLoop fetch none UpdateCheckType.Timed now2 db1
      (sortByName db1.get_all_programs)).db.programs = db1.programs
    rw [hloop]
  · rw [check_for_updates_updates _ _ _ _ _ herr2, hloop]
    show (sortByName db1.get_all_programs).filter
        (fun p => decide (p.latest_version ≠ p.current_version)) = [] ↔ _
    rw [List.filter_eq_nil_iff]
    constructor
    · intro hall row hrow
      have := hall row.toProgram (mem_sorted_of_mem db1 row hrow)
      simpa using this
    · intro hall p hp
      have hp2 : p ∈ db1.get_all_programs := (List.perm_insertionSort _ _).mem_iff.mp hp
      obtain ⟨row, hrow, hdef⟩ := List.mem_map.mp hp2
      rw [← hdef]
      simpa using hall row hrow

/-- C2 (amended) witness: the theorem instantiated on the concrete Case B
store, whose second pass is non-empty because the update is unapplied. -/
theorem C2_second_pass_witness :
    (check_for_updates fetch11 none UpdateCheckType.Timed 2
        (check_for_updates fetch11 none UpdateCheckType.Timed 1 exDbPending).db).error =
        none ∧
      (check_for_updates fetch11 none UpdateCheckType.Timed 2
          (check_for_updates fetch11 none UpdateCheckType.Timed 1 exDbPending).db).db.programs =
        (check_for_updates fetch11 none UpdateCheckType.Timed 1 exDbPending).db.programs ∧
      ((check_for_updates fetch11 none UpdateCheckType.Timed 2
          (check_for_updates fetch11 none UpdateCheckType.Timed 1 exDbPending).db).updates =
          [] ↔
        ∀ row ∈ (check_for_updates fetch11 none UpdateCheckType.Timed 1 exDbPending).db.programs,
          row.latest_version = row.current_version) :=
  C2_second_pass fetch11 none UpdateCheckType.Timed 1 2 exDbPending (by decide) (by decide)

/-- C3: on a program with `current_version = latest_version = 1.0.0` and a
fetched version `1.1.0`, a Manual check with `allow_notification = false`
leaves the store with `latest_version = 1.1.0` and `notification_sent = true`,
and a subsequent Timed pass with no further version change includes no program
in the outbound notification set. Quantified over the remaining manual option
and the dispatch outcome. -/
theorem C3_manual_suppression (scv dOk : Bool) :
    ((check_for_updates fetch11
          (some { set_current_version := scv, allow_notification := false })
          UpdateCheckType.Manual 1 exDb).db.lookupRow "alpha").map
        (fun r => (r.latest_version, r.notification_sent)) = some ("1.1.0", true) ∧
    (send_update_notification dOk 3
        (check_for_updates fetch11 none UpdateCheckType.Timed 2
          (check_for_updates fetch11
            (some { set_current_version := scv, allow_notification := false })
            UpdateCheckType.Manual 1 exDb).db).db
        (check_for_updates fetch11 none UpdateCheckType.Timed 2
          (check_for_updates fetch11
            (some { set_current_version := scv, allow_notification := false })
            UpdateCheckType.Manual 1 exDb).db).updates).notified = [] := by
  cases scv <;> cases dOk <;> decide

/-- C8 counterexample: a program registered through the add-program flow on an
empty store, with the provider returning `1.0.0`, is stored with
`current_version = latest_version = 1.0.0` but `notification_sent = false`,
not `true` (the INSERT leaves the schema default, which the repository's own
test `test_db_set_notification_sent` pins to false). -/
theorem C8_counterexample :
    ((add_program_github (fun _ => Except.ok "1.0.0") exEmptyDb "prog" "acme/prog"
        0).toOption.bind fun db =>
      (db.lookupRow "prog").map fun r =>
        (r.current_version, r.latest_version, r.notification_sent)) =
        some ("1.0.0", "1.0.0", false) ∧
    ((add_program_github (fun _ => Except.ok "1.0.0") exEmptyDb "prog" "acme/prog"
        0).toOption.bind fun db =>
      (db.lookupRow "prog").map fun r =>
        (r.current_version, r.latest_version, r.notification_sent)) ≠
        some ("1.0.0", "1.0.0", true) := by decide

/-- C8 (amended): a Program created through the add-program registration flow
is stored with `current_version = latest_version` = the version observed from
the provider at registration time, and with `notification_sent = false` and
`notification_sent_on = None` (the schema defaults pinned by the repository's
notification tests). -/
theorem C8_registration_state (fetch : Provider → Except String String) (db : Db)
    (name repository : String) (now : Nat) (v : String)
    (hfetch : fetch (Provider.github repository) = Except.ok v)
    (hnew : db.get_program name = none) :
    add_program_github fetch db name repository now =
      Except.ok
        { db with
            programs := db.programs ++
              [{ name := name, current_version := v, current_version_last_updated := now,
                 latest_version := v, latest_version_last_updated := now,
                 provider := Provider.github repository, notification_sent := false,
                 notification_sent_on := none }] } := by
  simp [add_program_github, hnew, Program.init, hfetch, Db.insert_program]

/-- C8 (amended) witness: the theorem instantiated on the empty store. -/
theorem C8_registration_state_witness :
    add_program_github (fun _ => Except.ok "1.0.0") exEmptyDb "prog" "acme/prog" 4 =
      Except.ok
        { exEmptyDb with
            programs := exEmptyDb.programs ++
              [{ name := "prog", current_version := "1.0.0",
                 current_version_last_updated := 4, latest_version := "1.0.0",
                 latest_version_last_updated := 4,
                 provider := Provider.github "acme/prog", notification_sent := false,
                 notification_sent_on := none }] } :=
  C8_registration_state (fun _ => Except.ok "1.0.0") exEmptyDb "prog" "acme/prog" 4
    "1.0.0" rfl (by decide)

/-- C9: the scheduler loop body is total and isolates failures: every
iteration's log records an error-notification attempt exactly when the pass
errored, a failure of the error notification itself changes nothing about the
resulting state (it is only logged), and after `n` iterations the loop has
performed exactly `n` passes whatever errors occurred, so no pass error
terminates the loop. -/
theorem C9_loop_isolation (envs : Nat → LoopEnv) (db : Db) (n : Nat) (env1 : LoopEnv)
    (db1 : Db) (b : Bool) :
    (runLoop envs db n).2.length = n ∧
      (∀ l ∈ (runLoop envs db n).2,
        l.error_notification_attempted = l.pass_error.isSome) ∧
      (loopBody { env1 with errorNotifyOk := b } db1).1 = (loopBody env1 db1).1 := by
  refine ⟨?_, ?_, ?_⟩
  · induction n with
    | zero => rfl
    | succ k ih => simp [runLoop, ih]
  · induction n with
    | zero => intro l hl; cases hl
    | succ k ih =>
      intro l hl
      simp only [runLoop] at hl
      rcases List.mem_append.mp hl with h | h
      · exact ih l h
      · have hl2 : l = (loopBody (envs k) (runLoop envs db k).1).2 := by simpa using h
        rw [hl2]
        rcases ht : timed_check_for_updates (envs k).fetch (envs k).dispatchOk (envs k).now
          (runLoop envs db k).1 with ⟨db2, eopt⟩
        cases eopt <;> simp [loopBody, ht]
  · rcases ht : timed_check_for_updates env1.fetch env1.dispatchOk env1.now db1 with ⟨db2, eopt⟩
    cases eopt <;> simp [loopBody, ht]

/-- C9 witness: two iterations under an always-failing provider and a failing
error-notification channel still run both passes and log the attempts. -/
theorem C9_loop_isolation_witness :
    (runLoop exEnvs exDb 2).2.length = 2 ∧
      ({ pass_error := some (PassError.provider "boom"),
         error_notification_attempted := true,
         error_notification_ok := some false } : IterationLog).error_notification_attempted =
        (some (PassError.provider "boom") : Option PassError).isSome := by
  have h := C9_loop_isolation exEnvs exDb 2 (exEnvs 0) exDb false
  exact ⟨h.1, h.2.1 _ (by decide)⟩

end SUC
